import Mathlib

/-!
# Verification of the observer-mode state synchronizer

Shallow embedding of `core/bin/server/src/observer_mode.rs`: the
`ObservedState` structure, its `init` / `update` /
`update_circuit_account_tree` / `apply` methods, and the `run` polling
loop, together with models (written from the specification) of the
external collaborators that the file uses but that live outside the
shown sources: the circuit account tree, the per-kind witness mutators,
the ledger operation type `ZkSyncOp`, the state-keeper checkpoint
`ZkSyncStateInitParams`, and the storage backend.

Rust's `&mut self` methods returning `Result<(), anyhow::Error>` are
embedded as state-passing functions returning the (possibly partially
mutated) state together with `Option String`: `none` is `Ok(())`,
`some e` is an error carrying the formatted message.  This keeps the
in-place-mutation semantics visible: on an early `?` return the
mutations already performed persist in the state.
-/

/-- Modelled from the spec: a leaf holds "a reduced/circuit-friendly
projection of an account (balances, nonce, public-key hash, address)".
Balances are an association list from token identifier to amount
(the concrete `CircuitAccount` type lives in the external
`zksync_crypto` crate). -/
structure CircuitAccount where
  balances : List (Nat × Nat)
  nonce : Nat
  pubKeyHash : Nat
  address : Nat
deriving DecidableEq, Repr

/-- Modelled from the spec: "empty-account defaults"; the state a leaf is
reset to when an operation zeroes it. -/
def emptyAccount : CircuitAccount :=
  { balances := [], nonce := 0, pubKeyHash := 0, address := 0 }

/-- Balance of a token in an association list, defaulting to `0`. -/
def lookupBalance (bs : List (Nat × Nat)) (tok : Nat) : Nat :=
  match bs with
  | [] => 0
  | (t, a) :: rest => if t = tok then a else lookupBalance rest tok

/-- Set the balance of a token in an association list (replace in place,
append if absent). -/
def setBalance (bs : List (Nat × Nat)) (tok amt : Nat) : List (Nat × Nat) :=
  match bs with
  | [] => [(tok, amt)]
  | (t, a) :: rest =>
      if t = tok then (t, amt) :: rest else (t, a) :: setBalance rest tok amt

/-- Credit `amt` of token `tok` to an account. -/
def CircuitAccount.credit (acc : CircuitAccount) (tok amt : Nat) : CircuitAccount :=
  { acc with balances := setBalance acc.balances tok (lookupBalance acc.balances tok + amt) }

/-- Debit `amt` of token `tok` from an account (truncated subtraction in
the model; the ledger guarantees sufficient balance). -/
def CircuitAccount.debit (acc : CircuitAccount) (tok amt : Nat) : CircuitAccount :=
  { acc with balances := setBalance acc.balances tok (lookupBalance acc.balances tok - amt) }

/-- Modelled from the spec: the account tree is "a sparse, fixed-depth
indexed tree" keyed by account identifier; the concrete
`CircuitAccountTree` lives in the external `zksync_crypto` crate.  The
occupied slots are an association list from account id to leaf. -/
structure CircuitAccountTree where
  depth : Nat
  leaves : List (Nat × CircuitAccount)
deriving DecidableEq, Repr

/-- Modelled from the spec: "Depth is a process-wide constant (protocol
parameter)" (`zksync_crypto::params::account_tree_depth()`). -/
def account_tree_depth : Nat := 32

/-- `CircuitAccountTree::new(depth)`: created empty. -/
def CircuitAccountTree.new (depth : Nat) : CircuitAccountTree :=
  { depth := depth, leaves := [] }

/-- Replace-or-append on the keyed leaf list. -/
def insertLeaf (ls : List (Nat × CircuitAccount)) (id : Nat) (a : CircuitAccount) :
    List (Nat × CircuitAccount) :=
  match ls with
  | [] => [(id, a)]
  | (k, b) :: rest =>
      if k = id then (k, a) :: rest else (k, b) :: insertLeaf rest id a

/-- Modelled from the spec: `insert(account_id, account)` "replaces the
leaf at `account_id` unconditionally". -/
def CircuitAccountTree.insert (t : CircuitAccountTree) (id : Nat) (a : CircuitAccount) :
    CircuitAccountTree :=
  { t with leaves := insertLeaf t.leaves id a }

/-- Leaf lookup. -/
def CircuitAccountTree.get (t : CircuitAccountTree) (id : Nat) : Option CircuitAccount :=
  match t.leaves.find? (fun p => p.1 = id) with
  | some p => some p.2
  | none => none

/-- Modify a leaf if present; an operation addressed at an absent leaf
leaves the tree unchanged. -/
def CircuitAccountTree.modify (t : CircuitAccountTree) (id : Nat)
    (f : CircuitAccount → CircuitAccount) : CircuitAccountTree :=
  match t.get id with
  | some a => t.insert id (f a)
  | none => t

/-- Modelled from the spec: a leaf's contribution to the tree commitment. -/
def accountHash (a : CircuitAccount) : Nat :=
  (a.balances.foldl (fun h p => h * 1000003 + p.1 * 65599 + p.2) 7)
    * 1000003 + a.nonce * 65599 + a.pubKeyHash * 31 + a.address

/-- Modelled from the spec: "the tree's root commitment" — a
deterministic function of the occupied slots. -/
def CircuitAccountTree.root (t : CircuitAccountTree) : Nat :=
  t.leaves.foldl (fun h p => h * 1000003 + p.1 * 65599 + accountHash p.2) t.depth

/-- Modelled from the spec: fields of the deposit operation (external
`zksync_types::DepositOp`). -/
structure DepositOp where
  account_id : Nat
  token : Nat
  amount : Nat
deriving DecidableEq, Repr

/-- Modelled from the spec: fields of the transfer operation. -/
structure TransferOp where
  from_id : Nat
  to_id : Nat
  token : Nat
  amount : Nat
deriving DecidableEq, Repr

/-- Modelled from the spec: fields of the transfer-to-new-account
operation; the destination identifier is "carried by the operation". -/
structure TransferToNewOp where
  from_id : Nat
  to_id : Nat
  token : Nat
  amount : Nat
deriving DecidableEq, Repr

/-- Modelled from the spec: fields of the withdraw operation. -/
structure WithdrawOp where
  account_id : Nat
  token : Nat
  amount : Nat
deriving DecidableEq, Repr

/-- Modelled from the spec: fields of the account-close operation. -/
structure CloseOp where
  account_id : Nat
deriving DecidableEq, Repr

/-- Modelled from the spec: fields of the full-exit operation, "with a
success flag indicating whether funds were actually withdrawn" carried
as the presence of `withdraw_amount`. -/
structure FullExitOp where
  account_id : Nat
  token : Nat
  withdraw_amount : Option Nat
deriving DecidableEq, Repr

/-- Modelled from the spec: fields of the off-chain public-key change. -/
structure ChangePubKeyOp where
  account_id : Nat
  new_pubkey_hash : Nat
deriving DecidableEq, Repr

/-- Modelled from the spec: fields of the forced-exit operation. -/
structure ForcedExitOp where
  target_account_id : Nat
  token : Nat
  amount : Nat
deriving DecidableEq, Repr

/-- Modelled from the spec: the no-op carries no state-relevant fields. -/
structure NoopOp where
deriving DecidableEq, Repr

/-- Modelled from the spec: "a closed, tagged variant over the operation
kinds the ledger supports" (external `zksync_types::ZkSyncOp`). -/
inductive ZkSyncOp where
  | Deposit (op : DepositOp)
  | Transfer (op : TransferOp)
  | TransferToNew (op : TransferToNewOp)
  | Withdraw (op : WithdrawOp)
  | Close (op : CloseOp)
  | FullExit (op : FullExitOp)
  | ChangePubKeyOffchain (op : ChangePubKeyOp)
  | ForcedExit (op : ForcedExitOp)
  | Noop (op : NoopOp)
deriving DecidableEq, Repr

/-- Modelled from the spec: "Deposit → credit destination leaf balance,
create leaf if absent" (external `DepositWitness::apply_tx`). -/
def DepositWitness.apply_tx (t : CircuitAccountTree) (op : DepositOp) : CircuitAccountTree :=
  t.insert op.account_id (((t.get op.account_id).getD emptyAccount).credit op.token op.amount)

/-- Modelled from the spec: "Transfer → debit source leaf, credit
destination leaf (destination assumed already present)". -/
def TransferWitness.apply_tx (t : CircuitAccountTree) (op : TransferOp) : CircuitAccountTree :=
  (t.modify op.from_id (fun a => a.debit op.token op.amount)).modify op.to_id
    (fun a => a.credit op.token op.amount)

/-- Modelled from the spec: "TransferToNew → debit source leaf, create
and credit a new destination leaf at the identifier carried by the
operation". -/
def TransferToNewWitness.apply_tx (t : CircuitAccountTree) (op : TransferToNewOp) :
    CircuitAccountTree :=
  (t.modify op.from_id (fun a => a.debit op.token op.amount)).insert op.to_id
    (emptyAccount.credit op.token op.amount)

/-- Modelled from the spec: "Withdraw → debit source leaf". -/
def WithdrawWitness.apply_tx (t : CircuitAccountTree) (op : WithdrawOp) : CircuitAccountTree :=
  t.modify op.account_id (fun a => a.debit op.token op.amount)

/-- Modelled from the spec: "Close → zero the source leaf (balance,
nonce, key fields reset to empty-account defaults)". -/
def CloseAccountWitness.apply_tx (t : CircuitAccountTree) (op : CloseOp) : CircuitAccountTree :=
  t.insert op.account_id emptyAccount

/-- Modelled from the spec: "FullExit → if the carried success flag is
true, zero the leaf; if false, leave the leaf unchanged".  The second
component of the argument pair is the success flag, exactly as in
`FullExitWitness::apply_tx(tree, &(op, success))`. -/
def FullExitWitness.apply_tx (t : CircuitAccountTree) (arg : FullExitOp × Bool) :
    CircuitAccountTree :=
  if arg.2 then t.insert arg.1.account_id emptyAccount else t

/-- Modelled from the spec: "ChangePubKeyOffchain → update the leaf's
public-key-hash field only". -/
def ChangePubkeyOffChainWitness.apply_tx (t : CircuitAccountTree) (op : ChangePubKeyOp) :
    CircuitAccountTree :=
  t.modify op.account_id (fun a => { a with pubKeyHash := op.new_pubkey_hash })

/-- Modelled from the spec: "ForcedExit → debit the target leaf". -/
def ForcedExitWitness.apply_tx (t : CircuitAccountTree) (op : ForcedExitOp) :
    CircuitAccountTree :=
  t.modify op.target_account_id (fun a => a.debit op.token op.amount)

/-- One dispatch step of `ObservedState::apply` (`observer_mode.rs`
lines 118–148): the exhaustive match over `ZkSyncOp`.  For `FullExit`
the success flag is computed as `full_exit.withdraw_amount.is_some()`
and passed to the mutator; `Noop` performs no mutation. -/
def applyOp (t : CircuitAccountTree) (op : ZkSyncOp) : CircuitAccountTree :=
  match op with
  | .Deposit d => DepositWitness.apply_tx t d
  | .Transfer tr => TransferWitness.apply_tx t tr
  | .TransferToNew tn => TransferToNewWitness.apply_tx t tn
  | .Withdraw w => WithdrawWitness.apply_tx t w
  | .Close c => CloseAccountWitness.apply_tx t c
  | .FullExit fe => FullExitWitness.apply_tx t (fe, fe.withdraw_amount.isSome)
  | .ChangePubKeyOffchain cp => ChangePubkeyOffChainWitness.apply_tx t cp
  | .ForcedExit fx => ForcedExitWitness.apply_tx t fx
  | .Noop _ => t

/-- The loop of `ObservedState::apply` over the block's operation vector,
in stored array order (`observer_mode.rs` line 117). -/
def applyOps (t : CircuitAccountTree) (ops : List ZkSyncOp) : CircuitAccountTree :=
  ops.foldl applyOp t

/-- Modelled from the spec: the state-keeper checkpoint
(`ZkSyncStateInitParams`, external to the shown sources); only its
"last-applied block number" field is observable through this core. -/
structure ZkSyncStateInitParams where
  last_block_number : Nat
deriving DecidableEq, Repr

/-- `ZkSyncStateInitParams::new()`. -/
def ZkSyncStateInitParams.new : ZkSyncStateInitParams :=
  { last_block_number := 0 }

/-- Modelled from the spec: the storage backend's abstract interface
(§6): full verified snapshot, last verified block number, per-block
operation lists, checkpoint restore, and checkpoint diff.  Each query
returns `Except String` — an `error` covers both a failed connection
acquisition and a failed query.  `load_state_diff` is given the
checkpoint's current last block and reports the new last-applied block
(`none` when no newer committed state exists). -/
structure Storage where
  load_verified_state : Except String (Nat × List (Nat × CircuitAccount))
  get_last_verified_block : Except String Nat
  get_block_operations : Nat → Except String (List ZkSyncOp)
  restore_from_db : Except String ZkSyncStateInitParams
  load_state_diff : Nat → Except String (Option Nat)

/-- The observed state (`observer_mode.rs` lines 17–26).  The storage
connection-pool handle is passed to each method explicitly instead of
being stored, since the embedding splits the pool into per-tick storage
snapshots. -/
structure ObservedState where
  state_keeper_init : ZkSyncStateInitParams
  circuit_acc_tree : CircuitAccountTree
  circuit_tree_block : Nat
deriving DecidableEq, Repr

/-- `ObservedState::new` (lines 29–36). -/
def ObservedState.new : ObservedState :=
  { state_keeper_init := ZkSyncStateInitParams.new
    circuit_acc_tree := CircuitAccountTree.new account_tree_depth
    circuit_tree_block := 0 }

/-- `ObservedState::apply` (lines 116–150) as a state transformer: it
mutates only `circuit_acc_tree`, never fails, and returns nothing. -/
def ObservedState.apply (s : ObservedState) (ops : List ZkSyncOp) : ObservedState :=
  { s with circuit_acc_tree := applyOps s.circuit_acc_tree ops }

/-- The `for bn in self.circuit_tree_block..block_number` loop body of
`update_circuit_account_tree` (lines 100–111): for each `bn` of the
range, fetch the operations of block `bn + 1` and apply them; a failed
fetch returns early with the mutations so far kept. -/
def replayGap (st : Storage) (s : ObservedState) : List Nat → ObservedState × Option String
  | [] => (s, none)
  | bn :: rest =>
    match st.get_block_operations (bn + 1) with
    | .error e => (s, some ("failed to get block operations " ++ e))
    | .ok ops => replayGap st (s.apply ops) rest

/-- `ObservedState::update_circuit_account_tree` (lines 89–114): read
the last verified block number, replay the gap
`circuit_tree_block..block_number` (fetching block `bn + 1` for each
`bn`), and only then assign `circuit_tree_block := block_number`. -/
def ObservedState.update_circuit_account_tree (s : ObservedState) (st : Storage) :
    ObservedState × Option String :=
  match st.get_last_verified_block with
  | .error e => (s, some ("failed to get last committed block: " ++ e))
  | .ok block_number =>
    match replayGap st s (List.range' s.circuit_tree_block (block_number - s.circuit_tree_block)) with
    | (s', some e) => (s', some e)
    | (s', none) => ({ s' with circuit_tree_block := block_number }, none)

/-- Modelled from the spec: `ZkSyncStateInitParams::load_state_diff`
(external to the shown sources) — "ask storage for the Checkpoint's
diff since its last recorded block and apply it, updating its
last-applied-block field"; with no newer committed state the checkpoint
is unchanged. -/
def applyStateDiff (p : ZkSyncStateInitParams) (d : Option Nat) : ZkSyncStateInitParams :=
  match d with
  | none => p
  | some m => { p with last_block_number := m }

/-- `ObservedState::update` (lines 70–87): first advance the circuit
tree, then load and apply the checkpoint diff; either failure
propagates, keeping the mutations performed so far. -/
def ObservedState.update (s : ObservedState) (st : Storage) : ObservedState × Option String :=
  match s.update_circuit_account_tree st with
  | (s', some e) => (s', some e)
  | (s1, none) =>
    match st.load_state_diff s1.state_keeper_init.last_block_number with
    | .error e => (s1, some e)
    | .ok d => ({ s1 with state_keeper_init := applyStateDiff s1.state_keeper_init d }, none)

/-- `ObservedState::init_circuit_tree` (lines 51–67): bulk-load the
verified snapshot, insert every returned account, record the block. -/
def ObservedState.init_circuit_tree (s : ObservedState) (st : Storage) :
    ObservedState × Option String :=
  match st.load_verified_state with
  | .error e => (s, some ("couldn't load committed state: " ++ e))
  | .ok (block_number, accounts) =>
    ({ s with
        circuit_acc_tree :=
          accounts.foldl (fun t p => t.insert p.1 p.2) s.circuit_acc_tree
        circuit_tree_block := block_number }, none)

/-- `ObservedState::init` (lines 39–49): initialize the circuit tree,
then restore the checkpoint from storage. -/
def ObservedState.init (s : ObservedState) (st : Storage) : ObservedState × Option String :=
  match s.init_circuit_tree st with
  | (s', some e) => (s', some e)
  | (s1, none) =>
    match st.restore_from_db with
    | .error e => (s1, some e)
    | .ok params => ({ s1 with state_keeper_init := params }, none)

/-- Result of `mpsc::Receiver::try_recv` on the stop channel:
`Ok(())`, `Err(Empty)`, or `Err(Disconnected)` (the only other error). -/
inductive TryRecvResult where
  | Received
  | Empty
  | Disconnected
deriving DecidableEq, Repr

/-- One polling tick's environment: the stop-channel read observed at
the top of the iteration and the storage contents the tick's queries
see. -/
structure TickEnv where
  stopRecv : TryRecvResult
  storage : Storage

/-- Observable events of the `run` loop, in program order: the
non-blocking stop check, the `thread::sleep(interval)` pause, and an
`update` pass tagged with whether it succeeded. -/
inductive RunEvent where
  | checkStop (r : TryRecvResult)
  | sleep
  | update (ok : Bool)
deriving DecidableEq, Repr

/-- Outcome of `run`: the snapshot returned on a normal stop, a panic
(from `panic!` on a broken channel or `.expect` on a failed init or
update), or — an artifact of embedding the unbounded loop over a finite
tick list — still running when the supplied ticks are exhausted. -/
inductive RunOutcome where
  | returned (s : ObservedState)
  | panicked (msg : String)
  | running (s : ObservedState)

/-- The `loop` of `run` (lines 168–184).  Each iteration: `try_recv`
(`Disconnected` panics immediately; `Ok` sets the exit flag), then the
sleep, then `update` (a failure panics via `.expect`), then `break` if
the exit flag was set.  The event list records the iteration structure. -/
def runLoop (s : ObservedState) : List TickEnv → RunOutcome × List RunEvent
  | [] => (.running s, [])
  | env :: rest =>
    match env.stopRecv with
    | .Disconnected =>
        (.panicked "stop channel recv error: receiving on an empty and disconnected channel",
         [.checkStop .Disconnected])
    | .Empty =>
        match s.update env.storage with
        | (_, some e) =>
            (.panicked ("failed to update observed state: " ++ e),
             [.checkStop .Empty, .sleep, .update false])
        | (s', none) =>
            let r := runLoop s' rest
            (r.1, .checkStop .Empty :: .sleep :: .update true :: r.2)
    | .Received =>
        match s.update env.storage with
        | (_, some e) =>
            (.panicked ("failed to update observed state: " ++ e),
             [.checkStop .Received, .sleep, .update false])
        | (s', none) =>
            (.returned s', [.checkStop .Received, .sleep, .update true])

/-- `run` (lines 157–186): build the fresh state, `init` it (an init
failure panics via `.expect`), then enter the loop. -/
def run (stInit : Storage) (ticks : List TickEnv) : RunOutcome × List RunEvent :=
  match ObservedState.new.init stInit with
  | (_, some e) => (.panicked ("failed to init observed state: " ++ e), [])
  | (s, none) => runLoop s ticks

/-! ## Auxiliary definitions used by the statements -/

/-- The gap `(old, B]` as the list `[old + 1, ..., B]` of block numbers
whose operations `update_circuit_account_tree` replays (the Rust loop
runs `bn` over `old..B` and fetches block `bn + 1`). -/
def gapBlocks (old B : Nat) : List Nat :=
  (List.range' old (B - old)).map (· + 1)

/-- The fold of a chain of successful idle ticks (`try_recv` returned
`Empty`, `update` succeeded): the state the loop holds after them. -/
def runTicksOk : ObservedState → List TickEnv → Option ObservedState
  | s, [] => some s
  | s, env :: rest =>
    match env.stopRecv with
    | .Empty =>
      match s.update env.storage with
      | (s', none) => runTicksOk s' rest
      | (_, some _) => none
    | _ => none

/-- The event trace produced by a chain of successful idle ticks. -/
def ticksTrace : ObservedState → List TickEnv → List RunEvent
  | _, [] => []
  | s, env :: rest =>
    match s.update env.storage with
    | (s', none) => .checkStop .Empty :: .sleep :: .update true :: ticksTrace s' rest
    | (_, some _) => []

/-- Whether an operation is the no-op variant. -/
def ZkSyncOp.isNoop : ZkSyncOp → Bool
  | .Noop _ => true
  | _ => false

/-- Drop the `Noop` operations from a block's operation list. -/
def removeNoops (ops : List ZkSyncOp) : List ZkSyncOp :=
  ops.filter fun op => !op.isNoop

/-! ## Concrete sample data (storage contents of the spec's §8 scenario,
used to instantiate the theorems) -/

/-- A sample account: balance 100 of token 0. -/
def acctW : CircuitAccount :=
  { balances := [(0, 100)], nonce := 1, pubKeyHash := 5, address := 9 }

/-- A sample tree holding `acctW` at account id 1. -/
def treeW : CircuitAccountTree := { depth := 3, leaves := [(1, acctW)] }

/-- A sample observed state at verified block 10, checkpoint block 11. -/
def sW : ObservedState :=
  { state_keeper_init := { last_block_number := 11 }
    circuit_acc_tree := treeW
    circuit_tree_block := 10 }

/-- `sW` with a different checkpoint but the same tree. -/
def sW2 : ObservedState := { sW with state_keeper_init := { last_block_number := 99 } }

/-- Sample per-block operation lists: block 11 transfers 30 from account
1 to account 2, block 12 deposits 50 to account 2. -/
def opsW : Nat → List ZkSyncOp
  | 11 => [ZkSyncOp.Transfer { from_id := 1, to_id := 2, token := 0, amount := 30 }]
  | 12 => [ZkSyncOp.Deposit { account_id := 2, token := 0, amount := 50 }]
  | _ => []

/-- A healthy storage: verified up to block 12, committed diff always one
block ahead of the checkpoint. -/
def stW : Storage :=
  { load_verified_state := .ok (10, [(1, acctW)])
    get_last_verified_block := .ok 12
    get_block_operations := fun b => .ok (opsW b)
    restore_from_db := .ok { last_block_number := 11 }
    load_state_diff := fun n => .ok (some (n + 1)) }

/-- A storage whose fetch of block 12's operations fails mid-gap. -/
def stFail : Storage :=
  { load_verified_state := .ok (10, [(1, acctW)])
    get_last_verified_block := .ok 12
    get_block_operations := fun b => if b = 12 then .error "io error" else .ok (opsW b)
    restore_from_db := .ok { last_block_number := 11 }
    load_state_diff := fun n => .ok (some (n + 1)) }

/-- A storage that is down entirely. -/
def stBad : Storage :=
  { load_verified_state := .error "db down"
    get_last_verified_block := .error "db down"
    get_block_operations := fun _ => .error "db down"
    restore_from_db := .error "db down"
    load_state_diff := fun _ => .error "db down" }

/-! ## Helper lemmas -/

theorem insertLeaf_find_self (ls : List (Nat × CircuitAccount)) (id : Nat)
    (a : CircuitAccount) :
    (insertLeaf ls id a).find? (fun p => p.1 = id) = some (id, a) := by
  induction ls with
  | nil => simp [insertLeaf, List.find?]
  | cons hd tl ih =>
    obtain ⟨k, b⟩ := hd
    by_cases hk : k = id
    · subst hk
      simp [insertLeaf, List.find?]
    · simp only [insertLeaf, if_neg hk]
      rw [List.find?_cons_of_neg]
      · exact ih
      · simpa using hk

theorem get_insert_self (t : CircuitAccountTree) (id : Nat) (a : CircuitAccount) :
    (t.insert id a).get id = some a := by
  simp [CircuitAccountTree.get, CircuitAccountTree.insert, insertLeaf_find_self]

theorem apply_circuit_tree (s : ObservedState) (ops : List ZkSyncOp) :
    s.apply ops =
      { s with circuit_acc_tree := applyOps s.circuit_acc_tree ops } := rfl

theorem replayGap_preserves_init (st : Storage) :
    ∀ (l : List Nat) (s : ObservedState),
      (replayGap st s l).1.state_keeper_init = s.state_keeper_init ∧
      (replayGap st s l).1.circuit_tree_block = s.circuit_tree_block := by
  intro l
  induction l with
  | nil => intro s; exact ⟨rfl, rfl⟩
  | cons bn rest ih =>
    intro s
    simp only [replayGap]
    cases hops : st.get_block_operations (bn + 1) with
    | error e => exact ⟨rfl, rfl⟩
    | ok ops => exact ih (s.apply ops)

theorem replayGap_ok (st : Storage) (f : Nat → List ZkSyncOp) :
    ∀ (l : List Nat) (s : ObservedState),
      (∀ bn ∈ l, st.get_block_operations (bn + 1) = .ok (f (bn + 1))) →
      replayGap st s l =
        ({ s with circuit_acc_tree :=
            l.foldl (fun t bn => applyOps t (f (bn + 1))) s.circuit_acc_tree }, none) := by
  intro l
  induction l with
  | nil => intro s _; rfl
  | cons bn rest ih =>
    intro s h
    have hbn := h bn (by simp)
    simp only [replayGap, hbn, List.foldl_cons]
    exact ih (s.apply (f (bn + 1))) (fun b hb => h b (by simp [hb]))

theorem replayGap_fail (st : Storage) (f : Nat → List ZkSyncOp) (bnF : Nat)
    (e : String) (rest : List Nat) (hfail : st.get_block_operations (bnF + 1) = .error e) :
    ∀ (done : List Nat) (s : ObservedState),
      (∀ bn ∈ done, st.get_block_operations (bn + 1) = .ok (f (bn + 1))) →
      replayGap st s (done ++ bnF :: rest) =
        ({ s with circuit_acc_tree :=
            done.foldl (fun t bn => applyOps t (f (bn + 1))) s.circuit_acc_tree },
         some ("failed to get block operations " ++ e)) := by
  intro done
  induction done with
  | nil =>
    intro s _
    simp only [List.nil_append, replayGap, hfail, List.foldl_nil]
  | cons bn tl ih =>
    intro s h
    have hbn := h bn (by simp)
    simp only [List.cons_append, replayGap, hbn, List.foldl_cons]
    exact ih (s.apply (f (bn + 1))) (fun b hb => h b (by simp [hb]))

theorem uct_ok (s : ObservedState) (st : Storage) (s1 : ObservedState)
    (h : s.update_circuit_account_tree st = (s1, none)) :
    ∃ B, st.get_last_verified_block = .ok B ∧ s1.circuit_tree_block = B ∧
      s1.state_keeper_init = s.state_keeper_init := by
  unfold ObservedState.update_circuit_account_tree at h
  split at h
  · simp at h
  · rename_i B hg
    split at h
    · simp at h
    · rename_i s2 hr
      have hs1 : s1 = { s2 with circuit_tree_block := B } := by
        simpa using (congrArg Prod.fst h).symm
      have hpres := replayGap_preserves_init st
        (List.range' s.circuit_tree_block (B - s.circuit_tree_block)) s
      rw [hr] at hpres
      exact ⟨B, hg, by rw [hs1], by rw [hs1]; exact hpres.1⟩

theorem update_ok (s : ObservedState) (st : Storage) (s' : ObservedState)
    (h : s.update st = (s', none)) :
    ∃ s1 d, s.update_circuit_account_tree st = (s1, none) ∧
      st.load_state_diff s1.state_keeper_init.last_block_number = .ok d ∧
      s' = { s1 with state_keeper_init := applyStateDiff s1.state_keeper_init d } := by
  unfold ObservedState.update at h
  split at h
  · simp at h
  · rename_i s1 hu
    split at h
    · simp at h
    · rename_i d hd
      exact ⟨s1, d, hu, hd, by simpa using (congrArg Prod.fst h).symm⟩

theorem update_ok_block (s : ObservedState) (st : Storage) (s' : ObservedState) (B : Nat)
    (h : s.update st = (s', none)) (hB : st.get_last_verified_block = .ok B) :
    s'.circuit_tree_block = B := by
  obtain ⟨s1, d, huct, _, hs'⟩ := update_ok s st s' h
  obtain ⟨B', hB', hctb, _⟩ := uct_ok s st s1 huct
  rw [hB] at hB'
  cases hB'
  have : s'.circuit_tree_block = s1.circuit_tree_block := by
    rw [hs']
  rw [this, hctb]

theorem runLoop_append_ok :
    ∀ (pre : List TickEnv) (s sMid : ObservedState),
      runTicksOk s pre = some sMid → ∀ envs,
      runLoop s (pre ++ envs) =
        ((runLoop sMid envs).1, ticksTrace s pre ++ (runLoop sMid envs).2) := by
  intro pre
  induction pre with
  | nil =>
    intro s sMid h envs
    have : s = sMid := by simpa [runTicksOk] using h
    subst this
    simp [ticksTrace]
  | cons env tl ih =>
    intro s sMid h envs
    cases hrecv : env.stopRecv with
    | Received => rw [runTicksOk, hrecv] at h; simp at h
    | Disconnected => rw [runTicksOk, hrecv] at h; simp at h
    | Empty =>
      rw [runTicksOk, hrecv] at h
      cases hupd : s.update env.storage with
      | mk s1 r1 =>
        rw [hupd] at h
        cases r1 with
        | some e => simp at h
        | none =>
          have h' : runTicksOk s1 tl = some sMid := by simpa using h
          have htl := ih s1 sMid h' envs
          simp only [List.cons_append, runLoop, hrecv, hupd, ticksTrace, List.append_eq]
          rw [htl]

theorem uct_eq_ok (s : ObservedState) (st : Storage) (B : Nat)
    (hB : st.get_last_verified_block = .ok B) :
    s.update_circuit_account_tree st =
      match replayGap st s (List.range' s.circuit_tree_block (B - s.circuit_tree_block)) with
      | (s', some e) => (s', some e)
      | (s', none) => ({ s' with circuit_tree_block := B }, none) := by
  unfold ObservedState.update_circuit_account_tree
  rw [hB]

/-! ## Claims -/

/-- C1: for every tick, if the synchronizer's update succeeds and storage
reports last-verified block `B`, then `update_circuit_account_tree`
fetches and replays the operation list of every block number in the
half-open gap `(circuit_tree_block, B]` — the list `gapBlocks`, which is
strictly increasing and contains exactly the block numbers of the gap —
in increasing block-number order (the left-fold), and afterwards
`circuit_tree_block` equals `B`. -/
theorem c1_update_replays_gap_in_order (s : ObservedState) (st : Storage) (B : Nat)
    (f : Nat → List ZkSyncOp)
    (hB : st.get_last_verified_block = .ok B)
    (hops : ∀ bn ∈ List.range' s.circuit_tree_block (B - s.circuit_tree_block),
      st.get_block_operations (bn + 1) = .ok (f (bn + 1))) :
    s.update_circuit_account_tree st =
      ({ s with
          circuit_acc_tree :=
            (gapBlocks s.circuit_tree_block B).foldl (fun t b => applyOps t (f b))
              s.circuit_acc_tree
          circuit_tree_block := B }, none) ∧
    (gapBlocks s.circuit_tree_block B).Pairwise (· < ·) ∧
    ∀ b, b ∈ gapBlocks s.circuit_tree_block B ↔ s.circuit_tree_block < b ∧ b ≤ B := by
  refine ⟨?_, ?_, ?_⟩
  · rw [uct_eq_ok s st B hB, replayGap_ok st f _ s hops]
    simp [gapBlocks, List.foldl_map]
  · simp only [gapBlocks, List.pairwise_map]
    exact (List.pairwise_lt_range' _ _).imp (fun h => by omega)
  · intro b
    simp only [gapBlocks, List.mem_map, List.mem_range'_1]
    constructor
    · rintro ⟨a, ⟨h1, h2⟩, rfl⟩
      omega
    · rintro ⟨h1, h2⟩
      exact ⟨b - 1, ⟨by omega, by omega⟩, by omega⟩

/-- C10: within a single `update_circuit_account_tree` call, if fetching
the operations of a mid-gap block fails, the error propagates with
`circuit_tree_block` still holding its previous value (the returned
state's record shows it untouched) even though the operations of the
earlier blocks of the gap (`done`) have already been applied to the
tree; `circuit_tree_block` is assigned only after every block of the gap
has been fetched and applied. -/
theorem c10_midgap_failure_keeps_block (s : ObservedState) (st : Storage) (B : Nat)
    (f : Nat → List ZkSyncOp) (done rest : List Nat) (bnF : Nat) (e : String)
    (hB : st.get_last_verified_block = .ok B)
    (hsplit : List.range' s.circuit_tree_block (B - s.circuit_tree_block) =
      done ++ bnF :: rest)
    (hdone : ∀ bn ∈ done, st.get_block_operations (bn + 1) = .ok (f (bn + 1)))
    (hfail : st.get_block_operations (bnF + 1) = .error e) :
    s.update_circuit_account_tree st =
      ({ s with
          circuit_acc_tree :=
            done.foldl (fun t bn => applyOps t (f (bn + 1))) s.circuit_acc_tree },
       some ("failed to get block operations " ++ e)) ∧
    (s.update_circuit_account_tree st).1.circuit_tree_block = s.circuit_tree_block := by
  have heq : s.update_circuit_account_tree st =
      ({ s with
          circuit_acc_tree :=
            done.foldl (fun t bn => applyOps t (f (bn + 1))) s.circuit_acc_tree },
       some ("failed to get block operations " ++ e)) := by
    rw [uct_eq_ok s st B hB, hsplit, replayGap_fail st f bnF e rest hfail done s hdone]
  exact ⟨heq, by rw [heq]⟩

/-- C4: in the replayer's dispatch, the success flag passed to the
`FullExit` mutator is exactly the presence of the operation's carried
`withdraw_amount` — a function of the operation alone, for every tree
(never recomputed from the current tree state); when the flag is false
the whole tree (hence the target leaf) is left unchanged, and when it is
true the target leaf is zeroed to the empty-account defaults. -/
theorem c4_full_exit_success_flag (t : CircuitAccountTree) (op : FullExitOp) :
    applyOp t (.FullExit op) = FullExitWitness.apply_tx t (op, op.withdraw_amount.isSome) ∧
    (op.withdraw_amount = none → applyOp t (.FullExit op) = t) ∧
    (∀ a, op.withdraw_amount = some a →
      (applyOp t (.FullExit op)).get op.account_id = some emptyAccount) := by
  refine ⟨rfl, ?_, ?_⟩
  · intro h
    simp [applyOp, FullExitWitness.apply_tx, h]
  · intro a h
    simp [applyOp, FullExitWitness.apply_tx, h, get_insert_self]

/-- C5: `apply` is deterministic and chunk-size-independent: the result
tree depends only on the starting tree and the ordered operations (so
two applications from equal trees yield equal trees), applying a
concatenation equals applying the parts in sequence, and splitting the
same ordered operations across any number of ticks (the fold over
chunks) yields the same tree — hence the same root — as one pass over
the flattened sequence. -/
theorem c5_apply_chunk_independent :
    (∀ (s1 s2 : ObservedState) (ops : List ZkSyncOp),
      s1.circuit_acc_tree = s2.circuit_acc_tree →
      (s1.apply ops).circuit_acc_tree = (s2.apply ops).circuit_acc_tree) ∧
    (∀ (s : ObservedState) (ops1 ops2 : List ZkSyncOp),
      s.apply (ops1 ++ ops2) = (s.apply ops1).apply ops2) ∧
    (∀ (s : ObservedState) (chunks : List (List ZkSyncOp)),
      chunks.foldl ObservedState.apply s = s.apply chunks.flatten) ∧
    (∀ (s : ObservedState) (chunks : List (List ZkSyncOp)),
      (chunks.foldl ObservedState.apply s).circuit_acc_tree.root =
        (s.apply chunks.flatten).circuit_acc_tree.root) := by
  have happ : ∀ (s : ObservedState) (ops1 ops2 : List ZkSyncOp),
      s.apply (ops1 ++ ops2) = (s.apply ops1).apply ops2 := by
    intro s ops1 ops2
    simp [ObservedState.apply, applyOps, List.foldl_append]
  have hfold : ∀ (chunks : List (List ZkSyncOp)) (s : ObservedState),
      chunks.foldl ObservedState.apply s = s.apply chunks.flatten := by
    intro chunks
    induction chunks with
    | nil => intro s; rfl
    | cons c cs ih =>
      intro s
      rw [List.foldl_cons, List.flatten_cons, happ]
      exact ih (s.apply c)
  refine ⟨?_, happ, fun s chunks => hfold chunks s, fun s chunks => by rw [hfold]⟩
  intro s1 s2 ops h
  simp [ObservedState.apply, h]

/-- C8: the replayer is total over the closed operation variant set —
`ObservedState.apply` is a total function (every one of the nine
variants is handled by the exhaustive dispatch of `applyOp` and there is
no error result in its type), a `Noop` operation causes no mutation of
the state, and consequently dropping all `Noop`s from any operation list
leaves the result unchanged. -/
theorem c8_apply_total_noop_identity :
    (∀ (s : ObservedState) (nop : NoopOp), s.apply [ZkSyncOp.Noop nop] = s) ∧
    (∀ (s : ObservedState) (ops : List ZkSyncOp), s.apply ops = s.apply (removeNoops ops)) := by
  have htree : ∀ (ops : List ZkSyncOp) (t : CircuitAccountTree),
      applyOps t ops = applyOps t (removeNoops ops) := by
    intro ops
    induction ops with
    | nil => intro t; rfl
    | cons op rest ih =>
      intro t
      cases op <;>
        simp [removeNoops, ZkSyncOp.isNoop, applyOps, applyOp, List.filter_cons] <;>
        exact ih _
  refine ⟨fun s nop => rfl, fun s ops => ?_⟩
  unfold ObservedState.apply
  rw [htree ops s.circuit_acc_tree]

/-- C2: monotonicity of the two high-water marks.  For every state and
every successful `update` step — under the spec's storage model, where
the polled last-verified block is at least the current
`circuit_tree_block` ("B₁ ≥ B₀") and a checkpoint diff "since its last
recorded block" never reports an earlier block — the new
`circuit_tree_block` and the new checkpoint `last_block_number` are each
at least their old values, including ticks where storage reports no new
blocks; and a successful or failed `init` from the fresh state never
decreases them either (they start at 0). -/
theorem c2_counters_monotone :
    (∀ (s : ObservedState) (st : Storage) (s' : ObservedState),
      s.update st = (s', none) →
      (∀ B, st.get_last_verified_block = .ok B → s.circuit_tree_block ≤ B) →
      (∀ n m, st.load_state_diff n = .ok (some m) → n ≤ m) →
      s.circuit_tree_block ≤ s'.circuit_tree_block ∧
      s.state_keeper_init.last_block_number ≤ s'.state_keeper_init.last_block_number) ∧
    (∀ (st : Storage) (r : ObservedState × Option String),
      ObservedState.new.init st = r →
      ObservedState.new.circuit_tree_block ≤ r.1.circuit_tree_block ∧
      ObservedState.new.state_keeper_init.last_block_number ≤
        r.1.state_keeper_init.last_block_number) := by
  constructor
  · intro s st s' h hB hD
    obtain ⟨s1, d, huct, hd, hs'⟩ := update_ok s st s' h
    obtain ⟨B, hg, hctb, hinit⟩ := uct_ok s st s1 huct
    have hble : s.circuit_tree_block ≤ B := hB B hg
    constructor
    · have : s'.circuit_tree_block = s1.circuit_tree_block := by rw [hs']
      rw [this, hctb]
      exact hble
    · cases d with
      | none =>
        have hsk : s'.state_keeper_init = s1.state_keeper_init := by
          rw [hs']
          rfl
        rw [hsk, hinit]
      | some m =>
        have hlast : s'.state_keeper_init.last_block_number = m := by rw [hs']; rfl
        rw [hlast]
        have := hD s1.state_keeper_init.last_block_number m hd
        rw [hinit] at this
        exact this
  · intro st r _
    exact ⟨Nat.zero_le _, Nat.zero_le _⟩

/-- C3: if, after any chain of successful idle ticks, the stop signal is
received at the top of a tick, the loop performs exactly one more
complete `update` pass — the trace after the final stop check is exactly
`[sleep, update true]` and any further supplied ticks are ignored — and
returns the accumulated state, whose `circuit_tree_block` equals the
last-verified block number storage reported during that final update. -/
theorem c3_stop_then_final_update (s sMid sFin : ObservedState)
    (pre rest : List TickEnv) (env : TickEnv) (B : Nat)
    (hpre : runTicksOk s pre = some sMid)
    (hstop : env.stopRecv = .Received)
    (hupd : sMid.update env.storage = (sFin, none))
    (hB : env.storage.get_last_verified_block = .ok B) :
    runLoop s (pre ++ env :: rest) =
      (.returned sFin,
       ticksTrace s pre ++ [.checkStop .Received, .sleep, .update true]) ∧
    sFin.circuit_tree_block = B := by
  constructor
  · rw [runLoop_append_ok pre s sMid hpre (env :: rest)]
    have hmid : runLoop sMid (env :: rest) =
        (.returned sFin, [.checkStop .Received, .sleep, .update true]) := by
      simp only [runLoop, hstop, hupd]
    rw [hmid]
  · exact update_ok_block sMid env.storage sFin B hupd hB

/-- C6: every storage failure is fatal and never yields a snapshot:
an `init` failure makes `run` panic with the init message; a `runLoop`
execution that returns a state contains no failed update in its trace
(so a snapshot is never returned after a failed tick); and a tick whose
`update` fails ends the loop immediately — the trace stops at that
single failed update attempt (no internal retry) and the outcome is the
panic carrying the update message. -/
theorem c6_storage_failure_fatal :
    (∀ (stInit : Storage) (ticks : List TickEnv) (e : String),
      (ObservedState.new.init stInit).2 = some e →
      (run stInit ticks).1 = .panicked ("failed to init observed state: " ++ e)) ∧
    (∀ (s : ObservedState) (ticks : List TickEnv) (s' : ObservedState),
      (runLoop s ticks).1 = .returned s' →
      RunEvent.update false ∉ (runLoop s ticks).2) ∧
    (∀ (s : ObservedState) (env : TickEnv) (rest : List TickEnv) (e : String),
      env.stopRecv ≠ .Disconnected →
      (s.update env.storage).2 = some e →
      runLoop s (env :: rest) =
        (.panicked ("failed to update observed state: " ++ e),
         [.checkStop env.stopRecv, .sleep, .update false])) := by
  refine ⟨?_, ?_, ?_⟩
  · intro stInit ticks e he
    unfold run
    cases hi : ObservedState.new.init stInit with
    | mk s0 r0 =>
      rw [hi] at he
      simp only at he
      subst he
      rfl
  · intro s ticks
    induction ticks generalizing s with
    | nil =>
      intro s' hret
      simp [runLoop] at hret
    | cons env rest ih =>
      intro s' hret
      cases hrecv : env.stopRecv with
      | Disconnected =>
        rw [runLoop, hrecv] at hret ⊢
        simp at hret
      | Empty =>
        cases hupd : s.update env.storage with
        | mk s1 r1 =>
          rw [runLoop, hrecv, hupd] at hret ⊢
          cases r1 with
          | some e => simp at hret
          | none =>
            simp at hret ⊢
            exact ih s1 s' hret
      | Received =>
        cases hupd : s.update env.storage with
        | mk s1 r1 =>
          rw [runLoop, hrecv, hupd] at hret ⊢
          cases r1 with
          | some e => simp at hret
          | none => simp
  · intro s env rest e hne hupd
    cases hrecv : env.stopRecv with
    | Disconnected => exact absurd hrecv hne
    | Empty =>
      rw [runLoop, hrecv]
      cases hu : s.update env.storage with
      | mk s1 r1 =>
        rw [hu] at hupd
        simp only at hupd
        subst hupd
        rfl
    | Received =>
      rw [runLoop, hrecv]
      cases hu : s.update env.storage with
      | mk s1 r1 =>
        rw [hu] at hupd
        simp only at hupd
        subst hupd
        rfl

/-- C7: if the stop channel's `try_recv` reports anything other than
"no message yet" — i.e. the sender was dropped without sending — the
loop panics at once (before the sleep and before any update: the trace
holds only the failed stop check) and never returns an `ObservedState`. -/
theorem c7_broken_channel_aborts (s : ObservedState) (env : TickEnv)
    (rest : List TickEnv) (h : env.stopRecv = .Disconnected) :
    runLoop s (env :: rest) =
      (.panicked "stop channel recv error: receiving on an empty and disconnected channel",
       [.checkStop .Disconnected]) ∧
    ∀ s', (runLoop s (env :: rest)).1 ≠ .returned s' := by
  have heq : runLoop s (env :: rest) =
      (.panicked "stop channel recv error: receiving on an empty and disconnected channel",
       [.checkStop .Disconnected]) := by
    rw [runLoop, h]
  exact ⟨heq, fun s' hc => by rw [heq] at hc; simp at hc⟩

/-- C9: even when the stop signal is already present at the very first
iteration, the loop still performs one complete `update` pass before
returning: the iteration's trace is the stop check first, then the
sleep, then the (successful) update, and only then does the loop exit
with the updated state; moreover in every iteration of `runLoop` the
first recorded event is the stop check. -/
theorem c9_stop_first_still_updates (s sF : ObservedState) (env : TickEnv)
    (rest : List TickEnv)
    (hstop : env.stopRecv = .Received)
    (hupd : s.update env.storage = (sF, none)) :
    runLoop s (env :: rest) =
      (.returned sF, [.checkStop .Received, .sleep, .update true]) ∧
    ∀ (s0 : ObservedState) (env0 : TickEnv) (rest0 : List TickEnv),
      ∃ tr, (runLoop s0 (env0 :: rest0)).2 = .checkStop env0.stopRecv :: tr := by
  constructor
  · simp only [runLoop, hstop, hupd]
  · intro s0 env0 rest0
    cases hrecv : env0.stopRecv with
    | Disconnected =>
      rw [runLoop, hrecv]
      exact ⟨[], rfl⟩
    | Empty =>
      rw [runLoop, hrecv]
      cases hu : s0.update env0.storage with
      | mk s1 r1 =>
        cases r1 with
        | some e => exact ⟨[.sleep, .update false], rfl⟩
        | none => exact ⟨.sleep :: .update true :: (runLoop s1 rest0).2, rfl⟩
    | Received =>
      rw [runLoop, hrecv]
      cases hu : s0.update env0.storage with
      | mk s1 r1 =>
        cases r1 with
        | some e => exact ⟨[.sleep, .update false], rfl⟩
        | none => exact ⟨[.sleep, .update true], rfl⟩

/-! ## Witnesses: the theorems instantiated at the concrete sample data -/

/-- C1 instantiated: from block 10 with storage verified to block 12, the
update succeeds, ends at block 12, and the gap is exactly `[11, 12]`. -/
theorem c1_witness :
    (sW.update_circuit_account_tree stW).1.circuit_tree_block = 12 ∧
    (sW.update_circuit_account_tree stW).2 = none ∧
    gapBlocks sW.circuit_tree_block 12 = [11, 12] := by
  have h := c1_update_replays_gap_in_order sW stW 12 opsW rfl (fun bn _ => rfl)
  rw [h.1]
  exact ⟨rfl, rfl, rfl⟩

/-- C2 instantiated: one successful update against `stW` does not
decrease either counter. -/
theorem c2_witness :
    sW.circuit_tree_block ≤ (sW.update stW).1.circuit_tree_block ∧
    sW.state_keeper_init.last_block_number ≤
      (sW.update stW).1.state_keeper_init.last_block_number :=
  c2_counters_monotone.1 sW stW (sW.update stW).1 rfl
    (fun B hB => by
      have h12 : (12 : Nat) = B := Except.ok.inj hB
      show (10 : Nat) ≤ B
      omega)
    (fun n m hm => by
      have h1 : (some (n + 1) : Option Nat) = some m := Except.ok.inj hm
      have h2 : n + 1 = m := Option.some.inj h1
      omega)

/-- C3 instantiated: a stop received at the first tick still drains the
storage: the loop returns the updated state at block 12. -/
theorem c3_witness :
    runLoop sW [{ stopRecv := .Received, storage := stW }] =
      (.returned (sW.update stW).1, [.checkStop .Received, .sleep, .update true]) ∧
    (sW.update stW).1.circuit_tree_block = 12 := by
  have h := c3_stop_then_final_update sW sW (sW.update stW).1 [] []
    { stopRecv := .Received, storage := stW } 12 rfl rfl rfl rfl
  simpa [ticksTrace] using h

/-- C4 instantiated: a rejected full exit (no `withdraw_amount`) leaves
the sample tree untouched; a successful one zeroes the leaf. -/
theorem c4_witness :
    applyOp treeW (.FullExit { account_id := 1, token := 0, withdraw_amount := none }) =
      treeW ∧
    (applyOp treeW
        (.FullExit { account_id := 1, token := 0, withdraw_amount := some 100 })).get 1 =
      some emptyAccount :=
  ⟨(c4_full_exit_success_flag treeW _).2.1 rfl,
   (c4_full_exit_success_flag treeW _).2.2 100 rfl⟩

/-- C5 instantiated: two states with equal trees stay equal after
replaying block 11's operations. -/
theorem c5_witness :
    (sW.apply (opsW 11)).circuit_acc_tree = (sW2.apply (opsW 11)).circuit_acc_tree :=
  c5_apply_chunk_independent.1 sW sW2 (opsW 11) rfl

/-- C6 instantiated: with storage down, `run` panics at init and yields
no snapshot. -/
theorem c6_witness :
    (run stBad []).1 =
      .panicked ("failed to init observed state: " ++
        ("couldn't load committed state: " ++ "db down")) :=
  c6_storage_failure_fatal.1 stBad [] ("couldn't load committed state: " ++ "db down") rfl

/-- C7 instantiated: a disconnected stop channel panics immediately. -/
theorem c7_witness :
    runLoop sW [{ stopRecv := .Disconnected, storage := stW }] =
      (.panicked "stop channel recv error: receiving on an empty and disconnected channel",
       [.checkStop .Disconnected]) :=
  (c7_broken_channel_aborts sW { stopRecv := .Disconnected, storage := stW } [] rfl).1

/-- C9 instantiated: with the stop signal present before the first tick,
the loop still runs one full update (check, sleep, update) and then
returns, ignoring the remaining supplied tick. -/
theorem c9_witness :
    runLoop sW
        [{ stopRecv := .Received, storage := stW }, { stopRecv := .Empty, storage := stW }] =
      (.returned (sW.update stW).1, [.checkStop .Received, .sleep, .update true]) :=
  (c9_stop_first_still_updates sW (sW.update stW).1
    { stopRecv := .Received, storage := stW }
    [{ stopRecv := .Empty, storage := stW }] rfl rfl).1

/-- C10 instantiated: with the fetch of block 12 failing mid-gap, the
update errors out and `circuit_tree_block` stays at 10. -/
theorem c10_witness :
    (sW.update_circuit_account_tree stFail).1.circuit_tree_block = 10 ∧
    (sW.update_circuit_account_tree stFail).2 =
      some ("failed to get block operations " ++ "io error") := by
  have h := c10_midgap_failure_keeps_block sW stFail 12 opsW [10] [] 11 "io error"
    rfl rfl
    (fun bn hbn => by
      have hb : bn = 10 := by simpa using hbn
      subst hb
      rfl)
    rfl
  exact ⟨h.2, by rw [h.1]⟩
